import Mathlib

/-!
# Verification of the `local-storge-api` tiered storage engine

Shallow embedding of the storage orchestrator (`LocalStorageAPI`), its
serialization pipeline and its three storage backends (`MemoryStorage`,
`LocalStorageStorage`, `IndexedDBStorage`), together with proofs about the
round-trip, TTL, fallback, snapshot, audit, query and cache behaviour of the
code.

JavaScript runtime values are modelled by the inductive `Value`.  Strings that
are produced by external platform codecs and whose character-level content the
code never inspects (the ISO-8601 text of `Date.prototype.toISOString`, the
data-URL text of `FileReader.readAsDataURL`) are kept symbolic as dedicated
constructors carrying their decoded content; the code only ever feeds them back
through the exact inverse codec (`new Date(iso)`, `atob(url.split(',')[1])`),
so the symbolic form is faithful to every observable use.
-/

namespace LocalStorageAPI

/-- A JavaScript runtime value, as handled by `serialize`/`deserialize`.

* `vstr` is an ordinary string; `visoDate t` is the ISO string of the
  timestamp `t` (a string at runtime, kept symbolic); `vdataUrl b m` is the
  data-URL string holding bytes `b` of MIME type `m` (a string at runtime,
  kept symbolic).
* `vobj` is a plain object as an ordered association list (JavaScript objects
  preserve insertion order); `vmap`/`vset`/`vdate`/`vblob` are the four
  non-JSON-native types the pipeline special-cases. -/
inductive Value where
  | vnull : Value
  | vbool : Bool → Value
  | vnum : Int → Value
  | vstr : String → Value
  | visoDate : Int → Value
  | vdataUrl : List Nat → String → Value
  | varr : List Value → Value
  | vobj : List (String × Value) → Value
  | vmap : List (Value × Value) → Value
  | vset : List Value → Value
  | vdate : Int → Value
  | vblob : List Nat → String → Value

mutual

/-- Returns `true` iff the value is JSON-native: built only from null, booleans,
numbers, strings (including the symbolic ISO/data-URL strings), arrays and
plain objects.  `JSON.parse ∘ JSON.stringify` is the identity exactly on this
fragment. -/
def jsonNativeB : Value → Bool
  | .vnull => true
  | .vbool _ => true
  | .vnum _ => true
  | .vstr _ => true
  | .visoDate _ => true
  | .vdataUrl _ _ => true
  | .varr l => jsonNativeListB l
  | .vobj l => jsonNativeObjB l
  | .vmap _ => false
  | .vset _ => false
  | .vdate _ => false
  | .vblob _ _ => false

def jsonNativeListB : List Value → Bool
  | [] => true
  | v :: vs => jsonNativeB v && jsonNativeListB vs

def jsonNativeObjB : List (String × Value) → Bool
  | [] => true
  | p :: ps => jsonNativeB p.2 && jsonNativeObjB ps

end

mutual

/-- The JSON image of a value: what `JSON.parse (JSON.stringify v)` returns.
`JSON.stringify` turns a `Map`, a `Set` or a `Blob` into `{}` (none has
enumerable own properties), and a `Date` into its ISO string (via `toJSON`);
JSON-native values pass through unchanged. -/
def collapse : Value → Value
  | .vnull => .vnull
  | .vbool b => .vbool b
  | .vnum n => .vnum n
  | .vstr s => .vstr s
  | .visoDate t => .visoDate t
  | .vdataUrl b m => .vdataUrl b m
  | .varr l => .varr (collapseList l)
  | .vobj l => .vobj (collapseObj l)
  | .vmap _ => .vobj []
  | .vset _ => .vobj []
  | .vdate t => .visoDate t
  | .vblob _ _ => .vobj []

def collapseList : List Value → List Value
  | [] => []
  | v :: vs => collapse v :: collapseList vs

def collapseObj : List (String × Value) → List (String × Value)
  | [] => []
  | p :: ps => (p.1, collapse p.2) :: collapseObj ps

end

/-- A thrown JavaScript error.  `plain` is the built-in `Error` (as thrown by
`loadSnapshot`/`compareSnapshots`), `typeError`/`syntaxError` the built-in
`TypeError`/`SyntaxError`, and `storage` the library's `StorageError` class
hierarchy, which carries a `code` string (`QuotaExceededError`,
`MigrationError` and `SerializationError` are `StorageError`s with fixed
codes).  The source defines no `NotFoundError` class. -/
inductive JsError where
  | plain : String → JsError
  | typeError : String → JsError
  | syntaxError : String → JsError
  | storage : String → String → JsError
  deriving DecidableEq, Repr

/-- Models `new QuotaExceededError()`. -/
def QuotaExceededErr : JsError := .storage "Storage quota exceeded" "QUOTA_EXCEEDED"

/-- Models `new SerializationError(msg)`. -/
def SerializationErr (msg : String) : JsError := .storage msg "SERIALIZATION_ERROR"

/-- Returns `true` iff the error is the bare built-in `Error` class (no `code`, no
`StorageError` subclass). -/
def JsError.isGenericError : JsError → Bool
  | .plain _ => true
  | _ => false

/-- Serialized data in flight, as the pipeline distinguishes it.

* `text v` — a JS string produced by `JSON.stringify` whose `JSON.parse` is
  `v` (the string itself is kept symbolic: `JSON.stringify` is deterministic
  and injective up to the parse result, so two stringify outputs are equal
  exactly when their parses are);
* `lz w` — the string `compressToUTF16 w` (for a string `w`);
* `bytes v` — the `Uint8Array` produced by `msgpackEncode v`;
* `corrupt` — the garbage `decompressFromUTF16` returns on input it did not
  itself produce. -/
inductive Wire where
  | text : Value → Wire
  | lz : Wire → Wire
  | bytes : Value → Wire
  | corrupt : Wire

/-- A storage profile (`StorageProfiles` values). -/
structure Profile where
  compression : String
  serialization : String
  adaptive : Bool
  maxRetries : Nat

/-- The `StorageProfiles` table. -/
def StorageProfiles : String → Option Profile
  | "ultra-fast" => some ⟨"none", "json", false, 1⟩
  | "max-compression" => some ⟨"lz-string", "msgpack", true, 3⟩
  | "low-memory" => some ⟨"lz-string", "json", false, 1⟩
  | "safe-mode" => some ⟨"none", "json", false, 5⟩
  | _ => none

/-- Models `StorageProfiles['safe-mode']`, the constructor's default. -/
def safeModeProfile : Profile := ⟨"none", "json", false, 5⟩

/-- JavaScript `a || b` for strings coming through an optional field:
`undefined` and `""` are falsy. -/
def jsOrStr (o : Option String) (d : String) : String :=
  match o with
  | some s => if s == "" then d else s
  | none => d

/-- Returns `true` iff `SerializationStrategies[s]` is defined. -/
def serializationDefined (s : String) : Bool := s == "json" || s == "msgpack"

/-- Returns `true` iff `CompressionEngines[c]` is defined. -/
def compressionDefined (c : String) : Bool := c == "lz-string" || c == "none"

/-- Models `SerializationStrategies[s].serialize`.  `JSON.stringify` yields the text
whose parse is the JSON image (`collapse`) of its argument; `msgpackEncode`
yields bytes decoding back to the argument (the strategies only ever receive
the output of the normalize step, which is JSON-native).  Only called for
defined strategies; the catch-all is unreachable. -/
def strategySerialize (s : String) (v : Value) : Wire :=
  if s == "json" then .text (collapse v)
  else if s == "msgpack" then .bytes v
  else .corrupt

/-- Models `CompressionEngines[c].compress`.  `lz-string`'s `compressToUTF16` reads
`charCodeAt` off its input, so handing it the `Uint8Array` that `msgpack`
produced throws a `TypeError`; `none` is the identity. -/
def engineCompress (c : String) (w : Wire) : Except JsError Wire :=
  if c == "lz-string" then
    match w with
    | .bytes _ => .error (.typeError "uncompressed.charCodeAt is not a function")
    | w => .ok (.lz w)
  else .ok w

/-- Models `CompressionEngines[c].decompress`.  `decompressFromUTF16` inverts
`compressToUTF16` and returns garbage on anything else; `none` is the
identity. -/
def engineDecompress (c : String) (w : Wire) : Wire :=
  if c == "lz-string" then
    match w with
    | .lz w => w
    | _ => .corrupt
  else w

/-- Models `SerializationStrategies[s].deserialize`.  `JSON.parse` of a stringify
output returns its parse; of compressed or binary garbage it throws a
`SyntaxError`.  `msgpackDecode` inverts `msgpackEncode` and rejects non-byte
input.  An undefined strategy name makes the property access itself throw
(`deserialize` does not null-check the strategy lookup). -/
def strategyDeserialize (s : String) (w : Wire) : Except JsError Value :=
  if s == "json" then
    match w with
    | .text v => .ok v
    | _ => .error (.syntaxError "Unexpected token in JSON")
  else if s == "msgpack" then
    match w with
    | .bytes v => .ok v
    | _ => .error (.typeError "input is not a Uint8Array")
  else .error (.typeError "serializer.deserialize is not a function")

/-- The special-type tagging at the top of `serialize` (`value instanceof
Map/Set/Date/Blob`): map-like, set-like, timestamp and binary values become
`{__type, value}` (plus `type` for blobs) structures; everything else passes
through.  A `Date`'s payload is its ISO string, a `Blob`'s the data-URL string
of its bytes (`FileReader.readAsDataURL`). -/
def normalize : Value → Value
  | .vmap l => .vobj [("__type", .vstr "Map"),
      ("value", .varr (l.map fun p => .varr [p.1, p.2]))]
  | .vset l => .vobj [("__type", .vstr "Set"), ("value", .varr l)]
  | .vdate t => .vobj [("__type", .vstr "Date"), ("value", .visoDate t)]
  | .vblob b m => .vobj [("__type", .vstr "Blob"),
      ("value", .vdataUrl b m), ("type", .vstr m)]
  | v => v

/-- Property read on a plain object; with duplicated keys the later
occurrence wins, as in an object built by `JSON.parse`. -/
def getProp (l : List (String × Value)) (k : String) : Option Value :=
  (l.reverse.find? (fun p => p.1 == k)).map (·.2)

/-- Models `new Map(entries)`: each entry contributes `(e[0], e[1])`.  A one-element
entry gives an `undefined` value, rendered `vnull` here (this model carries no
separate `undefined`; a real `Array.from(map.entries())` always yields pairs,
so the branch is unreachable from pipeline output); a non-array entry throws.
Real `Map`s never hold duplicate keys, so key deduplication need not be
modelled. -/
def mapFromEntries : List Value → Except JsError (List (Value × Value))
  | [] => .ok []
  | .varr (a :: b :: _) :: rest => do
      let tail ← mapFromEntries rest
      pure ((a, b) :: tail)
  | .varr [a] :: rest => do
      let tail ← mapFromEntries rest
      pure ((a, .vnull) :: tail)
  | _ :: _ => .error (.typeError "iterator value is not an entry object")

/-- The `__type` tag of a parsed object, when the property holds a string
(`parsed.__type` is read and switched over; a missing, non-string or
unmatched tag all leave the value untouched, as does the falsy `""`, which the
switch cannot match either). -/
def tagOf (l : List (String × Value)) : Option String :=
  match getProp l "__type" with
  | some (.vstr s) => some s
  | _ => none

/-- The special-type switch at the bottom of `deserialize`: an object tagged
`__type` ∈ {Map, Set, Date, Blob} is rebuilt into the runtime type; untagged
or unknown-tagged values pass through.  A real `Set` never holds duplicates,
so `Array.from`'s output is duplicate-free and `new Set` rebuilds it
elementwise; deduplication is therefore not modelled.  The Date branch models
`new Date(iso)`, the exact inverse of `toISOString` (non-ISO payloads, which
no pipeline output produces, would give an Invalid Date in JS).  The Blob
branch decodes the data-URL back into bytes and reads the MIME type off the
stored `type` property (`undefined` defaults to `""`). -/
def hydrate : Value → Except JsError Value
  | .vobj l =>
    match tagOf l with
    | some "Map" =>
      match getProp l "value" with
      | some (.varr entries) => (mapFromEntries entries).map .vmap
      | _ => .error (.typeError "iterable expected for new Map")
    | some "Set" =>
      match getProp l "value" with
      | some (.varr elems) => .ok (.vset elems)
      | _ => .error (.typeError "iterable expected for new Set")
    | some "Date" =>
      match getProp l "value" with
      | some (.visoDate t) => .ok (.vdate t)
      | _ => .error (.typeError "invalid Date payload")
    | some "Blob" =>
      match getProp l "value", getProp l "type" with
      | some (.vdataUrl b _), some (.vstr ty) => .ok (.vblob b ty)
      | some (.vdataUrl b _), _ => .ok (.vblob b "")
      | _, _ => .error (.typeError "parsed.value.split is not a function")
    | _ => .ok (.vobj l)
  | v => .ok v

/-- Models `LocalStorageAPI.serialize(value, options)`: normalize, then the strategy
chosen by `options.serialization || profile.serialization`, then the
compression engine chosen by `options.compression || profile.compression`
(skipped when the engine name is undefined; an undefined strategy throws a
`SerializationError`).  The optional encryption transform is `null` in every
configuration considered here, so its branch is inert. -/
def serialize (prof : Profile) (oSer oComp : Option String) (v : Value) :
    Except JsError Wire :=
  let strategy := jsOrStr oSer prof.serialization
  let compression := jsOrStr oComp prof.compression
  let data := normalize v
  if serializationDefined strategy then
    let serialized := strategySerialize strategy data
    if compressionDefined compression then
      engineCompress compression serialized
    else
      .ok serialized
  else
    .error (SerializationErr ("Unknown serialization strategy: " ++ strategy))

/-- Models `LocalStorageAPI.deserialize(data)`: decompress with the profile's engine
(when defined), deserialize with the profile's strategy, then hydrate the
special types.  Decryption is inert (`encryption` is `null` here), and the
leading `if (!data) return data` guard never fires on a wire `serialize`
produced (stringify and msgpack outputs are non-empty strings/arrays). -/
def deserialize (prof : Profile) (w : Wire) : Except JsError Value := do
  let data := if compressionDefined prof.compression
    then engineDecompress prof.compression w else w
  let parsed ← strategyDeserialize prof.serialization data
  hydrate parsed

/-- Write-then-read at the pipeline level: what `get` applies to the wire that
`set` stored (with no per-call strategy overrides). -/
def roundTrip (prof : Profile) (v : Value) : Except JsError Value :=
  (serialize prof none none v).bind (deserialize prof)

/-- JSON-nativity of the two components of every map entry. -/
def jsonNativePairsB : List (Value × Value) → Bool
  | [] => true
  | p :: ps => jsonNativeB p.1 && jsonNativeB p.2 && jsonNativePairsB ps

/-- The value categories the spec claims round-trip, with the payload
constraints the tagging scheme needs: primitives; nested objects and lists of
JSON-native data (normalization is top-level only, so non-native nesting is
never tagged); map-like/set-like values with JSON-native contents; timestamps;
binary blobs.  A plain object may not itself carry a `__type` tag of
Map/Set/Date/Blob, which the hydrate switch would misread as a tagged
value. -/
def supportedValue : Value → Bool
  | .vnull => true
  | .vbool _ => true
  | .vnum _ => true
  | .vstr _ => true
  | .visoDate _ => false
  | .vdataUrl _ _ => false
  | .varr l => jsonNativeListB l
  | .vobj l => jsonNativeObjB l &&
      !(tagOf l ∈ [some "Map", some "Set", some "Date", some "Blob"])
  | .vmap l => jsonNativePairsB l
  | .vset l => jsonNativeListB l
  | .vdate _ => true
  | .vblob _ _ => true

mutual

theorem collapse_eq_of_native : (v : Value) → jsonNativeB v = true → collapse v = v
  | .vnull, _ => rfl
  | .vbool _, _ => rfl
  | .vnum _, _ => rfl
  | .vstr _, _ => rfl
  | .visoDate _, _ => rfl
  | .vdataUrl _ _, _ => rfl
  | .varr l, h => by
      rw [collapse, collapseList_eq_of_native l (by simpa [jsonNativeB] using h)]
  | .vobj l, h => by
      rw [collapse, collapseObj_eq_of_native l (by simpa [jsonNativeB] using h)]

theorem collapseList_eq_of_native :
    (l : List Value) → jsonNativeListB l = true → collapseList l = l
  | [], _ => rfl
  | v :: vs, h => by
      rw [jsonNativeListB, Bool.and_eq_true] at h
      rw [collapseList, collapse_eq_of_native v h.1, collapseList_eq_of_native vs h.2]

theorem collapseObj_eq_of_native :
    (l : List (String × Value)) → jsonNativeObjB l = true → collapseObj l = l
  | [], _ => rfl
  | p :: ps, h => by
      rw [jsonNativeObjB, Bool.and_eq_true] at h
      rw [collapseObj, collapse_eq_of_native p.2 h.1, collapseObj_eq_of_native ps h.2]

end

theorem jsonNativeList_mapEntries (l : List (Value × Value))
    (h : jsonNativePairsB l = true) :
    jsonNativeListB (l.map fun p => Value.varr [p.1, p.2]) = true := by
  induction l with
  | nil => rfl
  | cons p ps ih =>
      rw [jsonNativePairsB, Bool.and_eq_true, Bool.and_eq_true] at h
      simp [jsonNativeListB, jsonNativeB, h.1.1, h.1.2, ih h.2]

/-- The normalized image of a supported value is a JSON fixed point: its
stringify-then-parse image is itself. -/
theorem collapse_normalize (v : Value) (h : supportedValue v = true) :
    collapse (normalize v) = normalize v := by
  cases v with
  | vnull => rfl
  | vbool b => rfl
  | vnum n => rfl
  | vstr s => rfl
  | visoDate t => simp [supportedValue] at h
  | vdataUrl b m => simp [supportedValue] at h
  | varr l =>
      rw [supportedValue] at h
      show Value.varr (collapseList l) = Value.varr l
      rw [collapseList_eq_of_native l h]
  | vobj l =>
      rw [supportedValue, Bool.and_eq_true] at h
      show Value.vobj (collapseObj l) = Value.vobj l
      rw [collapseObj_eq_of_native l h.1]
  | vmap l =>
      rw [supportedValue] at h
      simp [normalize, collapse, collapseObj,
        collapseList_eq_of_native _ (jsonNativeList_mapEntries l h)]
  | vset l =>
      rw [supportedValue] at h
      simp [normalize, collapse, collapseObj, collapseList_eq_of_native l h]
  | vdate t => rfl
  | vblob b m => rfl

theorem mapFromEntries_of_pairs (l : List (Value × Value)) :
    mapFromEntries (l.map fun p => Value.varr [p.1, p.2]) = .ok l := by
  induction l with
  | nil => rfl
  | cons p ps ih => simp [mapFromEntries, ih]

/-- Hydration exactly inverts normalization on supported values. -/
theorem hydrate_normalize (v : Value) (h : supportedValue v = true) :
    hydrate (normalize v) = .ok v := by
  cases v with
  | vnull => rfl
  | vbool b => rfl
  | vnum n => rfl
  | vstr s => rfl
  | visoDate t => simp [supportedValue] at h
  | vdataUrl b m => simp [supportedValue] at h
  | varr l => rfl
  | vobj l =>
      rw [supportedValue, Bool.and_eq_true] at h
      obtain ⟨-, hi⟩ := h
      show hydrate (Value.vobj l) = Except.ok (Value.vobj l)
      unfold hydrate
      split <;> simp_all
  | vmap l =>
      show (mapFromEntries (l.map fun p => Value.varr [p.1, p.2])).map Value.vmap =
        Except.ok (Value.vmap l)
      rw [mapFromEntries_of_pairs l]
      rfl
  | vset l => rfl
  | vdate t => rfl
  | vblob b m => rfl

/-- C1 (amended): write-then-read is the identity for every supported value
category — primitive, nested object (not itself `__type`-tagged), list,
map-like, set-like, timestamp, binary, containers holding JSON-native data —
under the serialization×compression combinations json×none, json×lz-string
and msgpack×none.  (The fourth combination, msgpack×lz-string, fails on every
value; see the counterexample.) -/
theorem roundTrip_supported_ok (p : Profile) (v : Value)
    (hcombo : (p.serialization = "json" ∧
        (p.compression = "none" ∨ p.compression = "lz-string")) ∨
      (p.serialization = "msgpack" ∧ p.compression = "none"))
    (hv : supportedValue v = true) :
    roundTrip p v = .ok v := by
  have hc := collapse_normalize v hv
  have hh := hydrate_normalize v hv
  rcases hcombo with ⟨hs, hn | hn⟩ | ⟨hs, hn⟩ <;>
    simp [roundTrip, serialize, deserialize, hs, hn, jsOrStr, serializationDefined,
      compressionDefined, strategySerialize, engineCompress, engineDecompress,
      strategyDeserialize, bind, Except.bind, hc, hh]

/-- C1 (counterexample): under the msgpack serialization strategy combined
with the lz-string compression strategy — exactly the stock `max-compression`
profile — writing even a primitive value fails: `msgpackEncode` hands a
`Uint8Array` to `compressToUTF16`, which throws a `TypeError`, so
`read(write(k,v))` cannot return the value for any `v`. -/
theorem roundTrip_maxCompression_counterexample :
    StorageProfiles "max-compression" = some ⟨"lz-string", "msgpack", true, 3⟩ ∧
    supportedValue (Value.vnum 0) = true ∧
    roundTrip ⟨"lz-string", "msgpack", true, 3⟩ (Value.vnum 0) =
      .error (.typeError "uncompressed.charCodeAt is not a function") :=
  ⟨rfl, rfl, rfl⟩

/-- C1 (witness): a concrete map-like value round-trips under the default
`safe-mode` profile (json serialization, no compression). -/
theorem roundTrip_supported_ok_witness :
    roundTrip safeModeProfile (Value.vmap [(Value.vstr "a", Value.vnum 1)]) =
      .ok (Value.vmap [(Value.vstr "a", Value.vnum 1)]) :=
  roundTrip_supported_ok safeModeProfile _ (Or.inl ⟨rfl, Or.inl rfl⟩) (by rfl)

/-! ## The three storage backends

`MemoryStorage`, `LocalStorageStorage` and `IndexedDBStorage` each keep
`{value, createdAt, updatedAt, version, ttl}` records under string keys, in
insertion order (a `Map` for memory, prefixed `localStorage` items for the
simple persistent layer — whose per-entry JSON round-trip is exact and is
modelled as the identity — and an object store keyed on `key` for IndexedDB).
All three are modelled on ordered association lists. -/

/-- A stored record (`{value, createdAt, updatedAt, version, ttl}`). -/
structure Entry where
  value : Wire
  createdAt : Int
  updatedAt : Int
  version : Nat
  ttl : Option Int

/-- Models `ttl ? Date.now() + ttl * 1000 : null`: a missing or zero (falsy)
`ttl` argument stores `null`. -/
def jsTtl (now : Int) (ttl : Option Int) : Option Int :=
  match ttl with
  | some s => if s = 0 then none else some (now + s * 1000)
  | none => none

/-- Models `item.ttl && Date.now() > item.ttl`: the entry is expired when its stored
`ttl` is truthy (non-null, non-zero) and strictly in the past. -/
def expired (now : Int) : Option Int → Bool
  | some t => t != 0 && decide (t < now)
  | none => false

/-- The record every backend's `set` builds: fresh `createdAt` and
`updatedAt`, version 1, absolute expiry. -/
def entryFor (now : Int) (w : Wire) (ttl : Option Int) : Entry :=
  ⟨w, now, now, 1, jsTtl now ttl⟩

/-- A backend's keyed store, in insertion order. -/
abbrev Store := List (String × Entry)

/-- Key lookup (`Map.get` / `getItem` / object-store `get`). -/
def findEntry (st : Store) (k : String) : Option Entry :=
  (st.find? (·.1 == k)).map (·.2)

/-- Keyed insert-or-replace (`Map.set` / `setItem` / `put`): an existing key
keeps its position, a new key is appended. -/
def upsert : Store → String → Entry → Store
  | [], k, e => [(k, e)]
  | p :: ps, k, e => if p.1 == k then (k, e) :: ps else p :: upsert ps k e

/-- Key removal (`Map.delete` / `removeItem` / object-store `delete`). -/
def removeKey (st : Store) (k : String) : Store :=
  st.filter (fun p => !(p.1 == k))

/-- The key list, unfiltered. -/
def storeKeys (st : Store) : List String := st.map (·.1)

theorem findEntry_upsert (st : Store) (k : String) (e : Entry) :
    findEntry (upsert st k e) k = some e := by
  induction st with
  | nil => simp [upsert, findEntry]
  | cons p ps ih =>
      by_cases h : p.1 = k
      · simp [upsert, findEntry, h]
      · simp only [upsert, beq_iff_eq, h, if_false]
        simpa [findEntry, h] using ih

theorem mem_storeKeys_upsert (st : Store) (k k' : String) (e : Entry) :
    k' ∈ storeKeys (upsert st k e) ↔ k' ∈ storeKeys st ∨ k' = k := by
  induction st with
  | nil => simp [upsert, storeKeys]
  | cons p ps ih =>
      by_cases h : p.1 = k
      · subst h
        simp [upsert, storeKeys]
        tauto
      · simp only [upsert, beq_iff_eq, h, if_false]
        simp [storeKeys] at ih ⊢
        tauto

/-- Models `MemoryStorage.set`. -/
def memSet (st : Store) (now : Int) (k : String) (w : Wire) (ttl : Option Int) : Store :=
  upsert st k (entryFor now w ttl)

/-- Models `MemoryStorage.get`: lazily deletes an expired entry and reports
absence. -/
def memGet (st : Store) (now : Int) (k : String) : Store × Option Wire :=
  match findEntry st k with
  | none => (st, none)
  | some item =>
      if expired now item.ttl then (removeKey st k, none) else (st, some item.value)

/-- Models `MemoryStorage.remove`. -/
def memRemove (st : Store) (k : String) : Store := removeKey st k

/-- Models `MemoryStorage.clear`. -/
def memClear : Store := []

/-- Models `MemoryStorage.keys`: `Array.from(this.data.keys())` — expired entries
are NOT filtered out. -/
def memKeys (st : Store) : List String := storeKeys st

/-- Models `MemoryStorage.has`: TTL-aware, with lazy deletion. -/
def memHas (st : Store) (now : Int) (k : String) : Store × Bool :=
  match findEntry st k with
  | none => (st, false)
  | some item =>
      if expired now item.ttl then (removeKey st k, false) else (st, true)

/-- Models `MemoryStorage.size`: sweeps expired entries, then counts. -/
def memSize (st : Store) (now : Int) : Store × Nat :=
  let st' := st.filter (fun p => !expired now p.2.ttl)
  (st', st'.length)

/-- Models `MemoryStorage.exportAll`: non-expired entries only (no eviction). -/
def memExportAll (st : Store) (now : Int) : List (String × Wire) :=
  (st.filter (fun p => !expired now p.2.ttl)).map (fun p => (p.1, p.2.value))

/-- Models `MemoryStorage.importAll`: `set` for each own entry of the argument, with
no TTL — a merge, not a replacement. -/
def memImportAll (st : Store) (now : Int) (data : List (String × Wire)) : Store :=
  data.foldl (fun acc p => memSet acc now p.1 p.2 none) st

/-- Models `LocalStorageStorage.set` (the stored record is `JSON.stringify`'d; for
string-valued wires that round-trip is exact and modelled as identity). -/
def lsSet (st : Store) (now : Int) (k : String) (w : Wire) (ttl : Option Int) : Store :=
  upsert st k (entryFor now w ttl)

/-- Models `LocalStorageStorage.get`: parses the item, lazily removes it when
expired. -/
def lsGet (st : Store) (now : Int) (k : String) : Store × Option Wire :=
  match findEntry st k with
  | none => (st, none)
  | some item =>
      if expired now item.ttl then (removeKey st k, none) else (st, some item.value)

/-- Models `LocalStorageStorage.has`: `getItem(...) !== null` — the TTL is NOT
consulted, so an expired-but-present entry still reports `true`. -/
def lsHas (st : Store) (k : String) : Bool :=
  (findEntry st k).isSome

/-- Models `LocalStorageStorage.keys`: every stored key with the namespace prefix —
expired entries are NOT filtered out. -/
def lsKeys (st : Store) : List String := storeKeys st

/-- Models `LocalStorageStorage.importAll`: `set` per entry, no TTL — a merge. -/
def lsImportAll (st : Store) (now : Int) (data : List (String × Wire)) : Store :=
  data.foldl (fun acc p => lsSet acc now p.1 p.2 none) st

/-- Models `IndexedDBStorage.set`: `put` of a fresh record. -/
def idbSet (st : Store) (now : Int) (k : String) (w : Wire) (ttl : Option Int) : Store :=
  upsert st k (entryFor now w ttl)

/-- Models `IndexedDBStorage.get`: TTL-aware with lazy deletion. -/
def idbGet (st : Store) (now : Int) (k : String) : Store × Option Wire :=
  match findEntry st k with
  | none => (st, none)
  | some item =>
      if expired now item.ttl then (removeKey st k, none) else (st, some item.value)

/-- Models `IndexedDBStorage.keys`: `getAllKeys()` — expired entries are NOT
filtered out. -/
def idbKeys (st : Store) : List String := storeKeys st

/-- Models `IndexedDBStorage.has`: `(await this.get(key)) !== null` — TTL-aware. -/
def idbHas (st : Store) (now : Int) (k : String) : Store × Bool :=
  let (st', v) := idbGet st now k
  (st', v.isSome)

/-- Models `IndexedDBStorage.importAll`: `put` per entry with `ttl: null` and fresh
timestamps — a merge. -/
def idbImportAll (st : Store) (now : Int) (data : List (String × Wire)) : Store :=
  data.foldl (fun acc p => idbSet acc now p.1 p.2 none) st

/-- C2 (amended): once a written TTL has passed (and the absolute expiry
timestamp is itself truthy), `read(k)` is absent in all three backends and
`has(k)` is `false` in the memory and IndexedDB backends; but `keys()` still
lists `k` in all three backends (no read path filters it), and the
LocalStorage backend's `has(k)` still answers `true` — the entry is only
logically absent on the `get` path. -/
theorem ttl_expiry_read_paths (st : Store) (t0 : Int) (k : String) (w : Wire)
    (s : Int) (now : Int) (hs : s ≠ 0) (hnz : t0 + s * 1000 ≠ 0)
    (hlate : t0 + s * 1000 < now) :
    (memGet (memSet st t0 k w (some s)) now k).2 = none ∧
    (memHas (memSet st t0 k w (some s)) now k).2 = false ∧
    k ∈ memKeys (memSet st t0 k w (some s)) ∧
    (lsGet (lsSet st t0 k w (some s)) now k).2 = none ∧
    lsHas (lsSet st t0 k w (some s)) k = true ∧
    k ∈ lsKeys (lsSet st t0 k w (some s)) ∧
    (idbGet (idbSet st t0 k w (some s)) now k).2 = none ∧
    (idbHas (idbSet st t0 k w (some s)) now k).2 = false ∧
    k ∈ idbKeys (idbSet st t0 k w (some s)) := by
  have hf : findEntry (upsert st k (entryFor t0 w (some s))) k =
      some (entryFor t0 w (some s)) := findEntry_upsert st k _
  have hexp : expired now (entryFor t0 w (some s)).ttl = true := by
    simp [entryFor, jsTtl, hs, expired, hnz, hlate]
  have hkeys : k ∈ storeKeys (upsert st k (entryFor t0 w (some s))) := by
    rw [mem_storeKeys_upsert]
    exact Or.inr rfl
  refine ⟨?_, ?_, hkeys, ?_, ?_, hkeys, ?_, ?_, hkeys⟩ <;>
    simp [memGet, memHas, memSet, lsGet, lsHas, lsSet, idbGet, idbHas, idbSet,
      hf, hexp]

/-- C2 (witness): key "k" written at time 0 with a 1-second TTL, probed at
2000 ms. -/
theorem ttl_expiry_read_paths_witness :
    (memGet (memSet [] 0 "k" (.text .vnull) (some 1)) 2000 "k").2 = none ∧
    (memHas (memSet [] 0 "k" (.text .vnull) (some 1)) 2000 "k").2 = false ∧
    "k" ∈ memKeys (memSet [] 0 "k" (.text .vnull) (some 1)) ∧
    (lsGet (lsSet [] 0 "k" (.text .vnull) (some 1)) 2000 "k").2 = none ∧
    lsHas (lsSet [] 0 "k" (.text .vnull) (some 1)) "k" = true ∧
    "k" ∈ lsKeys (lsSet [] 0 "k" (.text .vnull) (some 1)) ∧
    (idbGet (idbSet [] 0 "k" (.text .vnull) (some 1)) 2000 "k").2 = none ∧
    (idbHas (idbSet [] 0 "k" (.text .vnull) (some 1)) 2000 "k").2 = false ∧
    "k" ∈ idbKeys (idbSet [] 0 "k" (.text .vnull) (some 1)) :=
  ttl_expiry_read_paths [] 0 "k" (.text .vnull) 1 2000 (by decide) (by decide)
    (by decide)

/-- C2 (counterexample): after the TTL of "k" (written at 0 with ttl=1) has
passed, `keys()` of the memory backend still lists "k", and the LocalStorage
backend's `has("k")` is still `true` — the claim that every read path treats
the entry as absent is false. -/
theorem ttl_expiry_counterexample :
    memKeys (memSet [] 0 "k" (.text .vnull) (some 1)) = ["k"] ∧
    (memGet (memSet [] 0 "k" (.text .vnull) (some 1)) 2000 "k").2 = none ∧
    lsHas (lsSet [] 0 "k" (.text .vnull) (some 1)) "k" = true :=
  ⟨rfl, rfl, rfl⟩

/-- C7 (amended): in all three backends, every write installs a fresh record
whose `createdAt` equals the write time — so `createdAt` is overwritten (not
immutable) on every subsequent write of the same key, and `updatedAt` is
refreshed to the same value. -/
theorem set_resets_createdAt (st : Store) (now : Int) (k : String) (w : Wire)
    (ttl : Option Int) :
    findEntry (memSet st now k w ttl) k = some (entryFor now w ttl) ∧
    findEntry (lsSet st now k w ttl) k = some (entryFor now w ttl) ∧
    findEntry (idbSet st now k w ttl) k = some (entryFor now w ttl) ∧
    (entryFor now w ttl).createdAt = now ∧
    (entryFor now w ttl).updatedAt = now :=
  ⟨findEntry_upsert st k _, findEntry_upsert st k _, findEntry_upsert st k _,
    rfl, rfl⟩

/-- C7 (counterexample): writing "k" at time 10 and again at time 20 leaves
`createdAt = 20` in each backend — the first-write creation time 10 is not
preserved. -/
theorem createdAt_not_immutable_counterexample :
    (findEntry (memSet (memSet [] 10 "k" (.text .vnull) none) 20 "k"
        (.text .vnull) none) "k").map (·.createdAt) = some 20 ∧
    (findEntry (lsSet (lsSet [] 10 "k" (.text .vnull) none) 20 "k"
        (.text .vnull) none) "k").map (·.createdAt) = some 20 ∧
    (findEntry (idbSet (idbSet [] 10 "k" (.text .vnull) none) 20 "k"
        (.text .vnull) none) "k").map (·.createdAt) = some 20 ∧
    (findEntry (memSet [] 10 "k" (.text .vnull) none) "k").map (·.createdAt) =
      some 10 :=
  ⟨rfl, rfl, rfl, rfl⟩

/-! ## The orchestrator (`LocalStorageAPI`)

Hooks, encryption and cross-tab sync are `{}`/`null`/`null` by constructor
default and are absent in every configuration considered here, so their
branches are inert; `safeMode`/`debug` only produce console output.  Under
Node (`typeof window === 'undefined'`) `initLayers` pushes only
`MemoryStorage`, which always `supports()`; the `quotaFull` layer kind below
models the browser situation of a full persistent active layer with the
memory layer beneath it. -/

/-- A generic JS keyed collection (`Map` / plain object) lookup: the value
under `k`, if present. -/
def jsMapGet {α : Type} (m : List (String × α)) (k : String) : Option α :=
  (m.find? (·.1 == k)).map (·.2)

/-- Keyed insert-or-replace on a JS `Map`/object: existing keys keep their
position, new keys append. -/
def jsMapSet {α : Type} : List (String × α) → String → α → List (String × α)
  | [], k, a => [(k, a)]
  | p :: ps, k, a => if p.1 == k then (k, a) :: ps else p :: jsMapSet ps k a

/-- Keyed removal. -/
def jsMapDelete {α : Type} (m : List (String × α)) (k : String) : List (String × α) :=
  m.filter (fun p => !(p.1 == k))

theorem jsMapGet_set {α : Type} (m : List (String × α)) (k : String) (a : α) :
    jsMapGet (jsMapSet m k a) k = some a := by
  induction m with
  | nil => simp [jsMapSet, jsMapGet]
  | cons p ps ih =>
      by_cases h : p.1 = k
      · simp [jsMapSet, jsMapGet, h]
      · simp only [jsMapSet, beq_iff_eq, h, if_false]
        simpa [jsMapGet, h] using ih

/-- A cache record `{value, timestamp}` (decoded value, insertion time). -/
structure CacheRec where
  value : Value
  timestamp : Int

/-- One audit record: `set` logs `{action, key, timestamp, size}`, `delete`
logs `{action, key, timestamp}` and `clear` logs `{action, timestamp}`. -/
structure AuditRec where
  action : String
  key : Option String
  timestamp : Int
  size : Option Nat
  deriving DecidableEq, Repr

/-- One operation-history record (`{type, key, value?, oldValue}`). -/
structure HistRec where
  typ : String
  key : String
  value : Option Value
  oldValue : Option Value

/-- A registered snapshot `{data, timestamp, version}`. -/
structure Snapshot where
  data : List (String × Value)
  timestamp : Int
  version : Nat

mutual

/-- An executable structural size of a value. -/
def valueSize : Value → Nat
  | .varr l => 1 + valueSizeList l
  | .vobj l => 1 + valueSizeObj l
  | _ => 1

def valueSizeList : List Value → Nat
  | [] => 0
  | v :: vs => valueSize v + valueSizeList vs

def valueSizeObj : List (String × Value) → Nat
  | [] => 0
  | p :: ps => p.1.length + valueSize p.2 + valueSizeObj ps

end

/-- Models `JSON.stringify(value).length`, the `size` field of a `set` audit
record, by an executable size of the value's JSON image; only the presence
and count of audit records matter to any property proved here. -/
def approxSize (v : Value) : Nat := valueSize (collapse v)

/-- The backend occupying a layer slot.  `mem` is `MemoryStorage`;
`quotaFull` models a persistent backend whose write operations reject with
`QuotaExceededError` (a full `localStorage`/IndexedDB) while its read
operations behave normally. -/
inductive LayerKind where
  | mem
  | quotaFull
  deriving DecidableEq, Repr

/-- Models `currentLayer.set`. -/
def layerSet (kind : LayerKind) (st : Store) (now : Int) (k : String) (w : Wire)
    (ttl : Option Int) : Except JsError Store :=
  match kind with
  | .mem => .ok (memSet st now k w ttl)
  | .quotaFull => .error QuotaExceededErr

/-- Models `currentLayer.get` (reads are TTL-aware and lazily evict in both
kinds). -/
def layerGet (_kind : LayerKind) (st : Store) (now : Int) (k : String) :
    Store × Option Wire :=
  memGet st now k

/-- Models `currentLayer.remove`. -/
def layerRemove (_kind : LayerKind) (st : Store) (k : String) : Store :=
  removeKey st k

/-- Models `currentLayer.clear`. -/
def layerClear (_kind : LayerKind) : Store := []

/-- Models `currentLayer.keys` (no TTL filtering in any backend). -/
def layerKeys (_kind : LayerKind) (st : Store) : List String := storeKeys st

/-- Models `currentLayer.exportAll` (TTL-filtered, no eviction). -/
def layerExportAll (_kind : LayerKind) (st : Store) (now : Int) :
    List (String × Wire) :=
  memExportAll st now

/-- Models `currentLayer.importAll`: per-entry `set` with no TTL — a merge. -/
def layerImportAll (kind : LayerKind) (st : Store) (now : Int)
    (data : List (String × Wire)) : Except JsError Store :=
  match kind with
  | .mem => .ok (memImportAll st now data)
  | .quotaFull => .error QuotaExceededErr

/-- The orchestrator's state: configuration, the active layer, the rest of
the layer list (`this.layers`; no public operation ever touches a non-active
layer), the read cache, the audit log, the operation history, the snapshot
table, the emitted event names in order, and the metrics counters
(`reads`/`writes` and the length of `metrics.errors`). -/
structure ApiState where
  profile : Profile
  version : Nat
  cacheTTL : Option Int
  currentKind : LayerKind
  current : Store
  otherLayers : List (LayerKind × Store)
  cache : List (String × CacheRec)
  auditLog : List AuditRec
  operationHistory : List HistRec
  snapshots : List (String × Snapshot)
  events : List String
  reads : Nat
  writes : Nat
  errors : Nat

/-- Constructor options.  `cacheTTL` appears here because the published
TypeScript definitions advertise it as an option; the constructor body never
reads it.  Hooks, encryption and sync options are their absent defaults. -/
structure Options where
  nspace : Option String := none
  profile : Option String := none
  version : Option Nat := none
  debug : Bool := false
  safeMode : Bool := false
  cacheTTL : Option Int := none

/-- The constructor: profile lookup with `safe-mode` fallback,
`options.version || 1`, empty internal state.  `this.cacheTTL` is never
assigned — it stays `undefined` (`none`) whatever the options carry —
and under Node `initLayers` selects the always-supported memory layer. -/
def mkApi (o : Options) : ApiState :=
  { profile := (o.profile.bind StorageProfiles).getD safeModeProfile
    version := match o.version with
      | some n => if n = 0 then 1 else n
      | none => 1
    cacheTTL := none
    currentKind := .mem
    current := []
    otherLayers := []
    cache := []
    auditLog := []
    operationHistory := []
    snapshots := []
    events := []
    reads := 0
    writes := 0
    errors := 0 }

/-- Models `this.cacheTTL || 300000` (the cache-freshness bound in `get`). -/
def effectiveCacheTTL (st : ApiState) : Int :=
  match st.cacheTTL with
  | some t => if t = 0 then 300000 else t
  | none => 300000

/-- The backend half of `get` (after a cache miss): layer read (with lazy
eviction), the `if (!serialized) return null` early exit (no metrics, no
cache touch), deserialization (a failure is caught once: error recorded,
`error` event, rethrow), cache refresh and the read counter. -/
def apiGetBackend (st : ApiState) (now : Int) (k : String) :
    ApiState × Except JsError (Option Value) :=
  let res := layerGet st.currentKind st.current now k
  let st1 := {st with current := res.1}
  match res.2 with
  | none => (st1, .ok none)
  | some w =>
      match deserialize st.profile w with
      | .error e =>
          ({st1 with errors := st1.errors + 1, events := st1.events ++ ["error"]},
            .error e)
      | .ok v =>
          ({st1 with
            cache := jsMapSet st1.cache k ⟨v, now⟩,
            reads := st1.reads + 1}, .ok (some v))

/-- Models `LocalStorageAPI.get`: a cache record fresher than
`this.cacheTTL || 300000` answers immediately (one read counted, backend
untouched); otherwise the backend path runs. -/
def apiGet (st : ApiState) (now : Int) (k : String) :
    ApiState × Except JsError (Option Value) :=
  match jsMapGet st.cache k with
  | some r =>
      if now - r.timestamp < effectiveCacheTTL st then
        ({st with reads := st.reads + 1}, .ok (some r.value))
      else apiGetBackend st now k
  | none => apiGetBackend st now k

/-- Models `LocalStorageAPI.set`: serialize → layer write → cache refresh → audit
record → history record (whose `oldValue` is a re-entrant `this.get(key)`,
a fresh cache hit under the default cache window) → write counter → `change`
event.  Any throw is caught once: error count, `error` event, rethrow. -/
def apiSet (st : ApiState) (now : Int) (k : String) (v : Value)
    (ttl : Option Int) (oSer oComp : Option String) : ApiState × Option JsError :=
  match serialize st.profile oSer oComp v with
  | .error e =>
      ({st with errors := st.errors + 1, events := st.events ++ ["error"]}, some e)
  | .ok w =>
      match layerSet st.currentKind st.current now k w ttl with
      | .error e =>
          ({st with errors := st.errors + 1, events := st.events ++ ["error"]},
            some e)
      | .ok cur' =>
          let st1 := {st with
            current := cur',
            cache := jsMapSet st.cache k ⟨v, now⟩,
            auditLog := st.auditLog ++ [⟨"set", some k, now, some (approxSize v)⟩]}
          match apiGet st1 now k with
          | (stg, .error e) =>
              ({stg with errors := stg.errors + 1, events := stg.events ++ ["error"]},
                some e)
          | (stg, .ok old) =>
              ({stg with
                operationHistory := stg.operationHistory ++ [⟨"set", k, some v, old⟩],
                writes := stg.writes + 1,
                events := stg.events ++ ["change"]}, none)

/-- Models `LocalStorageAPI.remove` (public alias `delete`): `oldValue` via a full
`this.get(key)`, layer removal, cache invalidation, audit record, history
record, `delete` event; a throw from the inner get is caught again here. -/
def apiRemove (st : ApiState) (now : Int) (k : String) : ApiState × Option JsError :=
  match apiGet st now k with
  | (st1, .error e) =>
      ({st1 with errors := st1.errors + 1, events := st1.events ++ ["error"]}, some e)
  | (st1, .ok old) =>
      ({st1 with
        current := layerRemove st1.currentKind st1.current k,
        cache := jsMapDelete st1.cache k,
        auditLog := st1.auditLog ++ [⟨"delete", some k, now, none⟩],
        operationHistory := st1.operationHistory ++ [⟨"delete", k, none, old⟩],
        events := st1.events ++ ["delete"]}, none)

/-- Models `LocalStorageAPI.clear`: layer clear, full cache purge, audit record,
`clear` event. -/
def apiClear (st : ApiState) (now : Int) : ApiState × Option JsError :=
  ({st with
    current := layerClear st.currentKind,
    cache := [],
    auditLog := st.auditLog ++ [⟨"clear", none, now, none⟩],
    events := st.events ++ ["clear"]}, none)

/-- Models `LocalStorageAPI.has`: straight delegation to the active layer. -/
def apiHas (st : ApiState) (now : Int) (k : String) : ApiState × Bool :=
  let res := memHas st.current now k
  ({st with current := res.1}, res.2)

/-- Models `LocalStorageAPI.keys`: straight delegation to the active layer. -/
def apiKeys (st : ApiState) : List String := layerKeys st.currentKind st.current

/-- Sequential serialization of an export mapping (`importAll`'s loop):
the first failure aborts and discards the partial result. -/
def serializeAll (prof : Profile) : List (String × Value) →
    Except JsError (List (String × Wire))
  | [] => .ok []
  | (k, v) :: rest => do
      let w ← serialize prof none none v
      let tail ← serializeAll prof rest
      pure ((k, w) :: tail)

/-- Sequential deserialization of a layer export (`exportAll`'s loop). -/
def deserializeAll (prof : Profile) : List (String × Wire) →
    Except JsError (List (String × Value))
  | [] => .ok []
  | (k, w) :: rest => do
      let v ← deserialize prof w
      let tail ← deserializeAll prof rest
      pure ((k, v) :: tail)

/-- Models `LocalStorageAPI.exportAll`: the layer's TTL-filtered export, decoded.
No metrics, cache or audit activity. -/
def apiExportAll (st : ApiState) (now : Int) : Except JsError (List (String × Value)) :=
  deserializeAll st.profile (layerExportAll st.currentKind st.current now)

/-- Models `LocalStorageAPI.importAll`: cache purge first, then serialize every
entry, then the layer's merging import, then one `import` event.  No audit
record is appended, and there is no catch: a failure propagates raw. -/
def apiImportAll (st : ApiState) (now : Int) (data : List (String × Value)) :
    ApiState × Option JsError :=
  let st0 := {st with cache := []}
  match serializeAll st.profile data with
  | .error e => (st0, some e)
  | .ok wires =>
      match layerImportAll st0.currentKind st0.current now wires with
      | .error e => (st0, some e)
      | .ok cur' =>
          ({st0 with current := cur', events := st0.events ++ ["import"]}, none)

/-- Models `LocalStorageAPI.saveSnapshot`: registers the decoded export under the
name, stamped with time and version. -/
def apiSaveSnapshot (st : ApiState) (now : Int) (name : String) :
    ApiState × Option JsError :=
  match apiExportAll st now with
  | .error e => (st, some e)
  | .ok data =>
      ({st with snapshots := jsMapSet st.snapshots name ⟨data, now, st.version⟩}, none)

/-- Models `LocalStorageAPI.loadSnapshot`: an unregistered name throws a plain
`Error('Snapshot not found')`; otherwise `importAll` of the snapshot's data
(no clear of the live state). -/
def apiLoadSnapshot (st : ApiState) (now : Int) (name : String) :
    ApiState × Option JsError :=
  match jsMapGet st.snapshots name with
  | none => (st, some (.plain "Snapshot not found"))
  | some snap => apiImportAll st now snap.data

/-- Models `setMany` (alias `saveMany`): strictly sequential per-item `set`,
stopping at the first error. -/
def apiSetMany (st : ApiState) (now : Int) :
    List (String × Value) → ApiState × Option JsError
  | [] => (st, none)
  | (k, v) :: rest =>
      match apiSet st now k v none none none with
      | (st', none) => apiSetMany st' now rest
      | (st', some e) => (st', some e)

/-! ## Query builder -/

/-- The accumulated builder options.  `filter`, `sort`, `limit` and `take`
are four distinct slots of the options object the builder threads along. -/
structure QueryOptions where
  filter : Option (Value → String → Bool) := none
  sort : Option (String × Value → String × Value → Int) := none
  limit : Option Int := none
  take : Option Int := none

/-- Models `query(...).filter(fn)`: a new options object with the filter set. -/
def Query.filter (o : QueryOptions) (f : Value → String → Bool) : QueryOptions :=
  {o with filter := some f}

/-- Models `query(...).sort(fn)`. -/
def Query.sort (o : QueryOptions)
    (cmp : String × Value → String × Value → Int) : QueryOptions :=
  {o with sort := some cmp}

/-- Models `query(...).limit(n)`: writes the `limit` slot only. -/
def Query.limit (o : QueryOptions) (n : Int) : QueryOptions :=
  {o with limit := some n}

/-- Models `query(...).take(n)`: writes the `take` slot only. -/
def Query.take (o : QueryOptions) (n : Int) : QueryOptions :=
  {o with take := some n}

/-- JS truthiness of an optional number: `undefined` and `0` are falsy. -/
def truthyNum : Option Int → Bool
  | some n => n != 0
  | none => false

/-- Models `options.limit || options.take`. -/
def jsOrNum (a b : Option Int) : Option Int :=
  if truthyNum a then a else b

/-- Models `Array.prototype.slice(0, n)`: clamped take, counting from the end when
`n` is negative. -/
def jsSlice {α : Type} (l : List α) (n : Int) : List α :=
  if 0 ≤ n then l.take n.toNat else l.take (l.length - (-n).toNat)

/-- The truncation step of `execute`: `if (options.limit || options.take)
{ const limit = options.limit || options.take; results.slice(0, limit) }` —
the `limit` slot wins over `take` whenever it is truthy, regardless of the
order the builder methods were called in. -/
def applyLimit (o : QueryOptions) (l : List (String × Value)) :
    List (String × Value) :=
  if truthyNum o.limit || truthyNum o.take then
    match jsOrNum o.limit o.take with
    | some n => jsSlice l n
    | none => l
  else l

/-- One insertion step of the comparator sort. -/
def sortInsert {α : Type} (cmp : α → α → Int) (x : α) : List α → List α
  | [] => [x]
  | y :: ys => if cmp x y < 0 then x :: y :: ys else y :: sortInsert cmp x ys

/-- Models `Array.prototype.sort(comparator)` (stable, per ES2019), modelled as a
stable insertion sort driven by the comparator's sign. -/
def sortByCmp {α : Type} (cmp : α → α → Int) : List α → List α
  | [] => []
  | x :: xs => sortInsert cmp x (sortByCmp cmp xs)

/-- Models `query(...).execute()`: decoded export → filter (value, key) → sort →
truncate, returned as a key-ordered mapping.  No catch: a decode failure
propagates; no metrics or cache activity. -/
def queryExecute (st : ApiState) (now : Int) (o : QueryOptions) :
    Except JsError (List (String × Value)) := do
  let allData ← apiExportAll st now
  let results := match o.filter with
    | some f => allData.filter fun p => f p.2 p.1
    | none => allData
  let sorted := match o.sort with
    | some cmp => sortByCmp cmp results
    | none => results
  pure (applyLimit o sorted)

/-! ## Snapshot comparison -/

mutual

/-- Structural (deep) equality of runtime values. -/
def Value.beq : Value → Value → Bool
  | .vnull, .vnull => true
  | .vbool a, .vbool b => a == b
  | .vnum a, .vnum b => a == b
  | .vstr a, .vstr b => a == b
  | .visoDate a, .visoDate b => a == b
  | .vdataUrl a m, .vdataUrl c n => a == c && m == n
  | .varr a, .varr b => Value.beqList a b
  | .vobj a, .vobj b => Value.beqObj a b
  | .vmap a, .vmap b => Value.beqPairs a b
  | .vset a, .vset b => Value.beqList a b
  | .vdate a, .vdate b => a == b
  | .vblob a m, .vblob c n => a == c && m == n
  | _, _ => false
termination_by structural a _ => a

def Value.beqList : List Value → List Value → Bool
  | [], [] => true
  | a :: as, b :: bs => Value.beq a b && Value.beqList as bs
  | _, _ => false
termination_by structural l _ => l

def Value.beqObj : List (String × Value) → List (String × Value) → Bool
  | [], [] => true
  | (ka, va) :: as, (kb, vb) :: bs =>
      ka == kb && Value.beq va vb && Value.beqObj as bs
  | _, _ => false
termination_by structural l _ => l

def Value.beqPairs : List (Value × Value) → List (Value × Value) → Bool
  | [], [] => true
  | (ka, va) :: as, (kb, vb) :: bs =>
      Value.beq ka kb && Value.beq va vb && Value.beqPairs as bs
  | _, _ => false
termination_by structural l _ => l

end

/-- Models `JSON.stringify(a) === JSON.stringify(b)`: stringify is deterministic and
injective up to the JSON image, so two stringify outputs coincide exactly
when the images (`collapse`) are structurally equal. -/
def jsonTextEq (a b : Value) : Bool := Value.beq (collapse a) (collapse b)

/-- Models `key in data` (own-property test). -/
def hasKey {α : Type} (d : List (String × α)) (k : String) : Bool :=
  (jsMapGet d k).isSome

/-- Deduplication against an accumulator of already-seen keys. -/
def dedupAux (seen : List String) : List String → List String
  | [] => []
  | k :: ks => if k ∈ seen then dedupAux seen ks else k :: dedupAux (k :: seen) ks

/-- Models `new Set([...ks1, ...ks2])` iterated in insertion order: duplicates
dropped, first occurrence kept. -/
def dedupKeys (l : List String) : List String := dedupAux [] l

/-- The diff record `compareSnapshots` builds. -/
structure DiffResult where
  added : List String
  removed : List String
  changed : List String
  deriving DecidableEq, Repr

/-- The classification loop of `compareSnapshots` over the union of both key
sets: a key missing from the first snapshot is `added`, one missing from the
second is `removed`, and one present in both with differing JSON
serializations is `changed`. -/
def computeDiff (d1 d2 : List (String × Value)) : DiffResult :=
  let allKeys := dedupKeys (d1.map (·.1) ++ d2.map (·.1))
  { added := allKeys.filter fun k => !hasKey d1 k
    removed := allKeys.filter fun k => hasKey d1 k && !hasKey d2 k
    changed := allKeys.filter fun k =>
      hasKey d1 k && hasKey d2 k &&
        !(match jsMapGet d1 k, jsMapGet d2 k with
          | some a, some b => jsonTextEq a b
          | _, _ => true) }

/-- Models `LocalStorageAPI.compareSnapshots(name1, name2)`: either name missing
from the snapshot table throws a plain `Error('Snapshot not found')`. -/
def apiCompareSnapshots (st : ApiState) (n1 n2 : String) : Except JsError DiffResult :=
  match jsMapGet st.snapshots n1, jsMapGet st.snapshots n2 with
  | some s1, some s2 => .ok (computeDiff s1.data s2.data)
  | _, _ => .error (.plain "Snapshot not found")

/-! ## Supporting lemmas -/

/-- With a json-serializing profile, `serialize` always succeeds: the payload
is a string, which every compression engine (or the engine-undefined skip)
accepts. -/
theorem serialize_json_ok (p : Profile) (hp : p.serialization = "json") (v : Value) :
    serialize p none none v =
      .ok (if p.compression == "lz-string"
        then Wire.lz (.text (collapse (normalize v)))
        else Wire.text (collapse (normalize v))) := by
  by_cases hc : p.compression = "lz-string" <;>
    by_cases hn : p.compression = "none" <;>
      simp [serialize, jsOrStr, hp, serializationDefined, compressionDefined,
        strategySerialize, engineCompress, hc, hn]

/-- With a json-serializing profile, the sequential serialization of a whole
mapping succeeds and preserves the key list. -/
theorem serializeAll_json (p : Profile) (hp : p.serialization = "json") :
    (data : List (String × Value)) → ∃ wires,
      serializeAll p data = .ok wires ∧ wires.map (·.1) = data.map (·.1)
  | [] => ⟨[], rfl, rfl⟩
  | (k, v) :: rest => by
      obtain ⟨ws, hws, hkeys⟩ := serializeAll_json p hp rest
      refine ⟨(k, if p.compression == "lz-string"
        then Wire.lz (.text (collapse (normalize v)))
        else Wire.text (collapse (normalize v))) :: ws, ?_, ?_⟩
      · simp [serializeAll, serialize_json_ok p hp v, hws, bind, Except.bind, pure,
          Except.pure]
      · simp [hkeys]

/-- The merging import adds exactly the imported keys to the store's key
set. -/
theorem mem_storeKeys_importAll (data : List (String × Wire)) :
    ∀ (st : Store) (now : Int) (k : String),
      k ∈ storeKeys (memImportAll st now data) ↔
        k ∈ storeKeys st ∨ k ∈ data.map (·.1) := by
  induction data with
  | nil => simp [memImportAll]
  | cons p ps ih =>
      intro st now k
      have h1 := ih (memSet st now p.1 p.2 none) now k
      simp only [memImportAll, List.foldl_cons] at h1 ⊢
      rw [h1, memSet, mem_storeKeys_upsert]
      simp only [List.map_cons, List.mem_cons]
      tauto

/-- A fresh cache record short-circuits `get`: one read is counted and the
result is the cached value, with the rest of the state — in particular the
backend — untouched. -/
theorem apiGet_cache_hit (st : ApiState) (now : Int) (k : String) (r : CacheRec)
    (hfind : jsMapGet st.cache k = some r)
    (hfresh : now - r.timestamp < effectiveCacheTTL st) :
    apiGet st now k = ({st with reads := st.reads + 1}, .ok (some r.value)) := by
  simp [apiGet, hfind, hfresh]

theorem apiGetBackend_frame (st : ApiState) (now : Int) (k : String) :
    (apiGetBackend st now k).1.auditLog = st.auditLog ∧
    (apiGetBackend st now k).1.profile = st.profile ∧
    (apiGetBackend st now k).1.currentKind = st.currentKind ∧
    (apiGetBackend st now k).1.cacheTTL = st.cacheTTL ∧
    (apiGetBackend st now k).1.snapshots = st.snapshots ∧
    (apiGetBackend st now k).1.otherLayers = st.otherLayers := by
  simp only [apiGetBackend]
  cases h1 : (layerGet st.currentKind st.current now k).2 with
  | none => simp [h1]
  | some w =>
      cases h2 : deserialize st.profile w with
      | error e => simp [h1, h2]
      | ok v => simp [h1, h2]

/-- Reading through `get` never touches the audit log, the snapshot table, the configuration
or the non-active layers. -/
theorem apiGet_frame (st : ApiState) (now : Int) (k : String) :
    (apiGet st now k).1.auditLog = st.auditLog ∧
    (apiGet st now k).1.profile = st.profile ∧
    (apiGet st now k).1.currentKind = st.currentKind ∧
    (apiGet st now k).1.cacheTTL = st.cacheTTL ∧
    (apiGet st now k).1.snapshots = st.snapshots ∧
    (apiGet st now k).1.otherLayers = st.otherLayers := by
  simp only [apiGet]
  cases h1 : jsMapGet st.cache k with
  | none => simpa [h1] using apiGetBackend_frame st now k
  | some r =>
      by_cases h2 : now - r.timestamp < effectiveCacheTTL st
      · simp [h1, h2]
      · simpa [h1, h2] using apiGetBackend_frame st now k

/-- The test `hasKey` agrees with membership in the key list. -/
theorem hasKey_iff {α : Type} (d : List (String × α)) (k : String) :
    hasKey d k = true ↔ k ∈ d.map (·.1) := by
  induction d with
  | nil => simp [hasKey, jsMapGet]
  | cons p ps ih =>
      by_cases h : p.1 = k
      · simp [hasKey, jsMapGet, List.find?_cons_of_pos, h]
      · simp only [hasKey, jsMapGet] at ih ⊢
        rw [List.find?_cons_of_neg _ (by simpa using h)]
        simp [ih, h, Ne.symm h]

theorem mem_dedupAux (l : List String) :
    ∀ (seen : List String) (a : String),
      a ∈ dedupAux seen l ↔ a ∈ l ∧ ¬ a ∈ seen := by
  induction l with
  | nil => simp [dedupAux]
  | cons k ks ih =>
      intro seen a
      rw [dedupAux]
      by_cases hk : k ∈ seen <;> by_cases ha : a = k <;>
        simp [hk, ha, ih]

/-- Deduplication preserves membership. -/
theorem mem_dedupKeys (l : List String) (a : String) :
    a ∈ dedupKeys l ↔ a ∈ l := by
  rw [dedupKeys, mem_dedupAux]
  simp

/-! ## Claim theorems over the orchestrator -/

/-- The state of an instance whose active layer is a full persistent backend
(every write rejects with `QuotaExceededError`) while the layer list still
holds the always-available memory backend below it. -/
def quotaApiState : ApiState :=
  {mkApi {} with currentKind := .quotaFull, otherLayers := [(.mem, [])]}

/-- C3: when the active backend's write rejects with `QuotaExceededError` and
a lower-priority layer is available, `set` records the error, emits one
`error` event and rethrows immediately: the lower layer is never attempted
and stays untouched, no audit record is written, and the caller sees the
quota error on the first backend failure — `set` contains no fallback loop
over `this.layers`. -/
theorem set_no_backend_fallback :
    (apiSet quotaApiState 0 "k" .vnull none none none).2 = some QuotaExceededErr ∧
    (apiSet quotaApiState 0 "k" .vnull none none none).1.otherLayers =
      [(.mem, [])] ∧
    (apiSet quotaApiState 0 "k" .vnull none none none).1.current = [] ∧
    (apiSet quotaApiState 0 "k" .vnull none none none).1.auditLog = [] ∧
    (apiSet quotaApiState 0 "k" .vnull none none none).1.events = ["error"] :=
  ⟨rfl, rfl, rfl, rfl, rfl⟩

/-- A live memory layer holding the decoded numbers 1 and 2 under keys
"a", "b". -/
def twoEntryState : ApiState :=
  {mkApi {} with current := [("a", ⟨.text (.vnum 1), 0, 0, 1, none⟩),
    ("b", ⟨.text (.vnum 2), 0, 0, 1, none⟩)]}

/-- C9 (counterexample): on a two-entry store, `query().limit(1).take(2)`
executes to ONE entry, not the two the claim's last-set-wins reading
predicts — `limit` and `take` are separate slots and `limit` wins. -/
theorem limit_take_aliases_counterexample :
    queryExecute twoEntryState 0 (Query.take (Query.limit {} 1) 2) =
      .ok [("a", Value.vnum 1)] ∧
    queryExecute twoEntryState 0 {} =
      .ok [("a", Value.vnum 1), ("b", Value.vnum 2)] :=
  ⟨rfl, rfl⟩

/-- C9 (amended): `limit` and `take` are distinct slots of the options
object; each is individually last-set-wins, but `execute` truncates by
`options.limit || options.take`, so a truthy `limit` wins over `take` in
either call order: both `limit(n).take(m)` and `take(m).limit(n)` truncate to
`n` entries. -/
theorem limit_take_slots (st : ApiState) (now : Int) (o : QueryOptions)
    (n m : Int) (hn : n ≠ 0) :
    queryExecute st now (Query.take (Query.limit o n) m) =
      queryExecute st now (Query.limit o n) ∧
    queryExecute st now (Query.limit (Query.take o m) n) =
      queryExecute st now (Query.limit o n) := by
  have htn : truthyNum (some n) = true := by simp [truthyNum, hn]
  have h2 : Query.limit (Query.take o m) n = Query.take (Query.limit o n) m := rfl
  rw [h2]
  refine ⟨?_, ?_⟩ <;>
  · cases h : apiExportAll st now with
    | error e => simp [queryExecute, h, bind, Except.bind]
    | ok d =>
        simp [queryExecute, h, bind, Except.bind, Query.take, Query.limit,
          applyLimit, jsOrNum, htn]

/-- C9 (witness): the amended behaviour at `n = 1`, `m = 2` on the two-entry
store. -/
theorem limit_take_slots_witness :
    queryExecute twoEntryState 0 (Query.take (Query.limit {} 1) 2) =
      queryExecute twoEntryState 0 (Query.limit {} 1) ∧
    queryExecute twoEntryState 0 (Query.limit (Query.take {} 2) 1) =
      queryExecute twoEntryState 0 (Query.limit {} 1) :=
  limit_take_slots twoEntryState 0 {} 1 2 (by decide)

/-- A state with a cached value 7 for "k" while the backend stores 99 for the
same key: what the cache answers cannot have come from the backend. -/
def cachedState : ApiState :=
  {mkApi {} with
    cache := [("k", ⟨.vnum 7, 0⟩)],
    current := [("k", ⟨.text (.vnum 99), 0, 0, 1, none⟩)]}

/-- C10: for every constructor options object — `options.cacheTTL` included —
the constructed instance's `cacheTTL` field is `undefined` (never assigned),
so the cache window `this.cacheTTL || 300000` is the fixed 300000 ms; and a
`get` within that window of a key's cache insertion returns the cached value
with only the read counter changing — the backend is not consulted (the
result and the rest of the state, the layer included, are independent of the
backend contents). -/
theorem cacheTTL_fixed (o : Options) (st : ApiState) (now : Int) (k : String)
    (r : CacheRec) (hc : st.cacheTTL = none)
    (hfind : jsMapGet st.cache k = some r)
    (hfresh : now - r.timestamp < 300000) :
    (mkApi o).cacheTTL = none ∧
    effectiveCacheTTL (mkApi o) = 300000 ∧
    apiGet st now k = ({st with reads := st.reads + 1}, .ok (some r.value)) := by
  refine ⟨rfl, rfl, apiGet_cache_hit st now k r hfind ?_⟩
  simpa [effectiveCacheTTL, hc] using hfresh

/-- C10 (witness): with `cacheTTL: 5` passed as an option, the field is still
unset, the window is still 300000 ms, and a `get` at 10 ms returns the cached
7, not the 99 the backend holds. -/
theorem cacheTTL_fixed_witness :
    (mkApi {cacheTTL := some 5}).cacheTTL = none ∧
    effectiveCacheTTL (mkApi {cacheTTL := some 5}) = 300000 ∧
    apiGet cachedState 10 "k" =
      ({cachedState with reads := cachedState.reads + 1}, .ok (some (Value.vnum 7))) :=
  cacheTTL_fixed {cacheTTL := some 5} cachedState 10 "k" ⟨.vnum 7, 0⟩ rfl rfl
    (by decide)

/-- C4 (amended): for a registered snapshot, `loadSnapshot` imports the
snapshot's entries into the live state WITHOUT clearing it first: the call
succeeds, and the resulting live key set is the union of the previous live
keys and the snapshot's keys — a key present before the call but absent from
the snapshot survives. -/
theorem loadSnapshot_merges (st : ApiState) (now : Int) (name : String)
    (snap : Snapshot) (hname : jsMapGet st.snapshots name = some snap)
    (hk : st.currentKind = .mem) (hp : st.profile.serialization = "json") :
    (apiLoadSnapshot st now name).2 = none ∧
    ∀ k, k ∈ storeKeys (apiLoadSnapshot st now name).1.current ↔
      k ∈ storeKeys st.current ∨ k ∈ snap.data.map (·.1) := by
  obtain ⟨ws, hws, hkeys⟩ := serializeAll_json st.profile hp snap.data
  have hload : apiLoadSnapshot st now name =
      ({st with
        cache := [],
        current := memImportAll st.current now ws,
        events := st.events ++ ["import"]}, none) := by
    simp [apiLoadSnapshot, hname, apiImportAll, hws, hk, layerImportAll]
  rw [hload]
  refine ⟨rfl, fun k => ?_⟩
  show k ∈ storeKeys (memImportAll st.current now ws) ↔ _
  rw [mem_storeKeys_importAll ws st.current now k, hkeys]

/-- A live state holding key "x" with a registered snapshot "s" whose data
holds only key "y". -/
def snapState : ApiState :=
  {mkApi {} with
    current := [("x", ⟨.text .vnull, 0, 0, 1, none⟩)],
    snapshots := [("s", ⟨[("y", .vnull)], 0, 1⟩)]}

/-- C4 (witness): loading snapshot "s" over live key "x" succeeds, and "x" is
in the resulting key set because it was live before (the union semantics at
`k = "x"`). -/
theorem loadSnapshot_merges_witness :
    (apiLoadSnapshot snapState 5 "s").2 = none ∧
    ("x" ∈ storeKeys (apiLoadSnapshot snapState 5 "s").1.current ↔
      "x" ∈ storeKeys snapState.current ∨
        "x" ∈ ([("y", Value.vnull)] : List (String × Value)).map (·.1)) :=
  ⟨(loadSnapshot_merges snapState 5 "s" ⟨[("y", .vnull)], 0, 1⟩ rfl rfl rfl).1,
    (loadSnapshot_merges snapState 5 "s" ⟨[("y", .vnull)], 0, 1⟩ rfl rfl rfl).2 "x"⟩

/-- C4 (counterexample): after `loadSnapshot("s")` completes on a live state
holding "x", the live key set is `["x", "y"]` while the snapshot's key set is
`["y"]`: key "x", present before the call and absent from the snapshot, is
NOT gone — the claim's clear+import replacement semantics fail. -/
theorem loadSnapshot_counterexample :
    (apiLoadSnapshot snapState 5 "s").2 = none ∧
    storeKeys (apiLoadSnapshot snapState 5 "s").1.current = ["x", "y"] ∧
    (jsMapGet snapState.snapshots "s").map (fun s => s.data.map (·.1)) =
      some ["y"] ∧
    ¬ ("x" ∈ (["y"] : List String)) :=
  ⟨rfl, rfl, rfl, by decide⟩

/-- C5 (amended): `loadSnapshot` of an unregistered name — and
`compareSnapshots` when either argument is unregistered — throws the plain
built-in `Error` with message "Snapshot not found", not a distinct
`NotFoundError` kind (the library defines no such class; its only error
classes are StorageError, QuotaExceededError, MigrationError and
SerializationError). -/
theorem snapshot_missing_generic_error (st : ApiState) (now : Int)
    (name n1 n2 : String) (h : jsMapGet st.snapshots name = none)
    (h12 : jsMapGet st.snapshots n1 = none ∨ jsMapGet st.snapshots n2 = none) :
    apiLoadSnapshot st now name = (st, some (.plain "Snapshot not found")) ∧
    (JsError.plain "Snapshot not found").isGenericError = true ∧
    apiCompareSnapshots st n1 n2 = .error (.plain "Snapshot not found") := by
  refine ⟨by simp [apiLoadSnapshot, h], rfl, ?_⟩
  rcases h12 with h1 | h2
  · cases hx : jsMapGet st.snapshots n2 <;> simp [apiCompareSnapshots, h1, hx]
  · cases hx : jsMapGet st.snapshots n1 <;> simp [apiCompareSnapshots, h2, hx]

/-- C5 (witness): the freshly constructed instance has an empty snapshot
table, and both lookups fail with the plain error. -/
theorem snapshot_missing_generic_error_witness :
    apiLoadSnapshot (mkApi {}) 0 "nope" =
      (mkApi {}, some (.plain "Snapshot not found")) ∧
    (JsError.plain "Snapshot not found").isGenericError = true ∧
    apiCompareSnapshots (mkApi {}) "a" "b" =
      .error (.plain "Snapshot not found") :=
  snapshot_missing_generic_error (mkApi {}) 0 "nope" "a" "b" rfl (Or.inl rfl)

/-- C5 (counterexample): the error thrown for an unregistered snapshot is the
generic base `Error` (`isGenericError`), carrying no `StorageError` code —
there is no distinct `NotFoundError` kind to fail with, so the claim is
false on any unregistered name. -/
theorem snapshot_notfound_counterexample :
    apiLoadSnapshot (mkApi {}) 0 "missing" =
      (mkApi {}, some (.plain "Snapshot not found")) ∧
    (JsError.plain "Snapshot not found").isGenericError = true ∧
    apiCompareSnapshots (mkApi {}) "missing" "other" =
      .error (.plain "Snapshot not found") :=
  ⟨rfl, rfl, rfl⟩

/-- A successful `set` under a json profile on the memory layer: no error,
exactly one new audit record, configuration untouched. -/
theorem apiSet_json_spec (st : ApiState) (now : Int) (k : String) (v : Value)
    (ttl : Option Int) (hp : st.profile.serialization = "json")
    (hk : st.currentKind = .mem) (hc : st.cacheTTL = none) :
    (apiSet st now k v ttl none none).2 = none ∧
    (apiSet st now k v ttl none none).1.auditLog =
      st.auditLog ++ [⟨"set", some k, now, some (approxSize v)⟩] ∧
    (apiSet st now k v ttl none none).1.profile = st.profile ∧
    (apiSet st now k v ttl none none).1.currentKind = st.currentKind ∧
    (apiSet st now k v ttl none none).1.cacheTTL = none := by
  have hser := serialize_json_ok st.profile hp v
  have hhit := jsMapGet_set st.cache k (⟨v, now⟩ : CacheRec)
  simp only [apiSet, hser, hk, layerSet]
  rw [apiGet_cache_hit _ now k ⟨v, now⟩ (by simpa using hhit)
    (by simp [effectiveCacheTTL, hc])]
  simp [hk, hc]

/-- Sequential writes append one audit record per item, in order. -/
theorem apiSetMany_json_spec (now : Int) :
    ∀ (items : List (String × Value)) (st : ApiState),
      st.profile.serialization = "json" → st.currentKind = .mem →
      st.cacheTTL = none →
      (apiSetMany st now items).2 = none ∧
      (apiSetMany st now items).1.auditLog = st.auditLog ++
        items.map (fun p => ⟨"set", some p.1, now, some (approxSize p.2)⟩)
  | [], st, _, _, _ => by simp [apiSetMany]
  | (k, v) :: rest, st, hp, hk, hc => by
      obtain ⟨h2, haud, hprof, hkind, hcttl⟩ := apiSet_json_spec st now k v none hp hk hc
      rcases hset : apiSet st now k v none none none with ⟨st', r⟩
      rw [hset] at h2 haud hprof hkind hcttl
      simp only at h2 haud hprof hkind hcttl
      subst h2
      have hp' : st'.profile.serialization = "json" := by rw [hprof]; exact hp
      have hk' : st'.currentKind = .mem := by rw [hkind]; exact hk
      obtain ⟨ih2, ihaud⟩ := apiSetMany_json_spec now rest st' hp' hk' hcttl
      refine ⟨?_, ?_⟩
      · simp [apiSetMany, hset, ih2]
      · simp [apiSetMany, hset, ihaud, haud]

/-- A successful `remove` appends exactly one `delete` audit record. -/
theorem apiRemove_audit (st : ApiState) (now : Int) (k : String)
    (hsucc : (apiRemove st now k).2 = none) :
    (apiRemove st now k).1.auditLog =
      st.auditLog ++ [⟨"delete", some k, now, none⟩] := by
  have hframe := (apiGet_frame st now k).1
  rcases hget : apiGet st now k with ⟨st1, r⟩
  rw [hget] at hframe
  simp only at hframe
  cases r with
  | error e => simp [apiRemove, hget] at hsucc
  | ok old => simp [apiRemove, hget, hframe]

/-- Calling `importAll` leaves the audit log unchanged, success or failure. -/
theorem apiImportAll_audit (st : ApiState) (now : Int)
    (data : List (String × Value)) :
    (apiImportAll st now data).1.auditLog = st.auditLog := by
  simp only [apiImportAll]
  cases h : serializeAll st.profile data with
  | error e => simp [h]
  | ok ws =>
      cases h2 : layerImportAll st.currentKind st.current now ws with
      | error e => simp [h, h2]
      | ok cur => simp [h, h2]

/-- C6 (amended): under a json profile on the memory layer, `set`, `delete`
and `clear` each append exactly ONE audit record after a successful commit,
and `setMany` appends one record PER ITEM; but `importAll` — a successful
mutating call — appends NO audit record at all. -/
theorem audit_one_record_per_mutation (st : ApiState) (now : Int)
    (k k2 : String) (v : Value) (ttl : Option Int)
    (data items : List (String × Value))
    (hp : st.profile.serialization = "json") (hk : st.currentKind = .mem)
    (hc : st.cacheTTL = none) :
    ((apiSet st now k v ttl none none).2 = none ∧
      (apiSet st now k v ttl none none).1.auditLog =
        st.auditLog ++ [⟨"set", some k, now, some (approxSize v)⟩]) ∧
    ((apiRemove st now k2).2 = none →
      (apiRemove st now k2).1.auditLog =
        st.auditLog ++ [⟨"delete", some k2, now, none⟩]) ∧
    ((apiClear st now).2 = none ∧
      (apiClear st now).1.auditLog =
        st.auditLog ++ [⟨"clear", none, now, none⟩]) ∧
    (apiImportAll st now data).1.auditLog = st.auditLog ∧
    ((apiSetMany st now items).2 = none ∧
      (apiSetMany st now items).1.auditLog = st.auditLog ++
        items.map (fun p => ⟨"set", some p.1, now, some (approxSize p.2)⟩)) := by
  obtain ⟨h1, h2, -, -, -⟩ := apiSet_json_spec st now k v ttl hp hk hc
  exact ⟨⟨h1, h2⟩, apiRemove_audit st now k2, ⟨rfl, rfl⟩,
    apiImportAll_audit st now data,
    apiSetMany_json_spec now items st hp hk hc⟩

/-- C6 (witness): the amended behaviour on a fresh instance, writing "a",
removing "b", clearing, importing `{c: null}` and bulk-writing one item. -/
theorem audit_one_record_per_mutation_witness :
    (((apiSet (mkApi {}) 0 "a" .vnull none none none).2 = none ∧
      (apiSet (mkApi {}) 0 "a" .vnull none none none).1.auditLog =
        [] ++ [⟨"set", some "a", 0, some (approxSize .vnull)⟩]) ∧
    ((apiRemove (mkApi {}) 0 "b").2 = none →
      (apiRemove (mkApi {}) 0 "b").1.auditLog =
        [] ++ [⟨"delete", some "b", 0, none⟩]) ∧
    ((apiClear (mkApi {}) 0).2 = none ∧
      (apiClear (mkApi {}) 0).1.auditLog = [] ++ [⟨"clear", none, 0, none⟩]) ∧
    (apiImportAll (mkApi {}) 0 [("c", .vnull)]).1.auditLog = [] ∧
    ((apiSetMany (mkApi {}) 0 [("d", .vnull)]).2 = none ∧
      (apiSetMany (mkApi {}) 0 [("d", .vnull)]).1.auditLog = [] ++
        ([("d", Value.vnull)]).map
          (fun p => ⟨"set", some p.1, 0, some (approxSize p.2)⟩))) :=
  audit_one_record_per_mutation (mkApi {}) 0 "a" "b" .vnull none
    [("c", .vnull)] [("d", .vnull)] rfl rfl rfl

/-- C6 (counterexample): `importAll({a: null})` on a fresh instance commits
successfully — key "a" becomes live — yet the audit log stays empty: a
successful mutating call that appends no audit record. -/
theorem importAll_no_audit_counterexample :
    (apiImportAll (mkApi {}) 0 [("a", .vnull)]).2 = none ∧
    storeKeys (apiImportAll (mkApi {}) 0 [("a", .vnull)]).1.current = ["a"] ∧
    (apiImportAll (mkApi {}) 0 [("a", .vnull)]).1.auditLog = [] :=
  ⟨rfl, rfl, rfl⟩

theorem mem_diff_added (d1 d2 : List (String × Value)) (k : String) :
    k ∈ (computeDiff d1 d2).added ↔
      k ∈ d2.map (·.1) ∧ ¬ k ∈ d1.map (·.1) := by
  simp only [computeDiff, List.mem_filter, mem_dedupKeys, List.mem_append,
    Bool.not_eq_true', ← Bool.not_eq_true, hasKey_iff]
  tauto

theorem mem_diff_removed (d1 d2 : List (String × Value)) (k : String) :
    k ∈ (computeDiff d1 d2).removed ↔
      k ∈ d1.map (·.1) ∧ ¬ k ∈ d2.map (·.1) := by
  simp only [computeDiff, List.mem_filter, mem_dedupKeys, List.mem_append,
    Bool.and_eq_true, Bool.not_eq_true', ← Bool.not_eq_true, hasKey_iff]
  tauto

theorem mem_diff_changed (d1 d2 : List (String × Value)) (k : String)
    (va vb : Value) (h1 : jsMapGet d1 k = some va)
    (h2 : jsMapGet d2 k = some vb) :
    k ∈ (computeDiff d1 d2).changed ↔ jsonTextEq va vb = false := by
  have hk1 : hasKey d1 k = true := by simp [hasKey, h1]
  have hk2 : hasKey d2 k = true := by simp [hasKey, h2]
  have hmem1 : k ∈ d1.map (·.1) := (hasKey_iff d1 k).1 hk1
  simp [computeDiff, List.mem_filter, mem_dedupKeys, hk1, hk2, h1, h2, hmem1]

/-- C8 (amended): for registered snapshots `a` and `b`, `compareSnapshots`
classifies the union of both key sets: `added` holds exactly the keys of `b`
absent from `a`, `removed` exactly the keys of `a` absent from `b`, so
`compare(a,b).added` and `compare(b,a).removed` coincide as key sets (and
vice versa).  `changed` holds the keys present in both whose values' JSON
serializations differ — which coincides with deep inequality for JSON-native
values but NOT for non-JSON-native ones (e.g. two different Maps both
stringify to `{}` and are never flagged). -/
theorem compareSnapshots_spec (st : ApiState) (a b : String) (sa sb : Snapshot)
    (ha : jsMapGet st.snapshots a = some sa)
    (hb : jsMapGet st.snapshots b = some sb) :
    apiCompareSnapshots st a b = .ok (computeDiff sa.data sb.data) ∧
    (∀ k, k ∈ (computeDiff sa.data sb.data).added ↔
      k ∈ sb.data.map (·.1) ∧ ¬ k ∈ sa.data.map (·.1)) ∧
    (∀ k, k ∈ (computeDiff sa.data sb.data).removed ↔
      k ∈ sa.data.map (·.1) ∧ ¬ k ∈ sb.data.map (·.1)) ∧
    (∀ k, k ∈ (computeDiff sa.data sb.data).added ↔
      k ∈ (computeDiff sb.data sa.data).removed) ∧
    (∀ k, k ∈ (computeDiff sa.data sb.data).removed ↔
      k ∈ (computeDiff sb.data sa.data).added) ∧
    (∀ k va vb, jsMapGet sa.data k = some va → jsMapGet sb.data k = some vb →
      (k ∈ (computeDiff sa.data sb.data).changed ↔ jsonTextEq va vb = false)) := by
  refine ⟨by simp [apiCompareSnapshots, ha, hb], mem_diff_added _ _, mem_diff_removed _ _,
    fun k => ?_, fun k => ?_, fun k va vb h1 h2 => mem_diff_changed _ _ k va vb h1 h2⟩
  · rw [mem_diff_added, mem_diff_removed]
  · rw [mem_diff_removed, mem_diff_added]

/-- Snapshots "a" and "b" each hold key "k", with two deep-unequal Map values
(different entries). -/
def diffState : ApiState :=
  {mkApi {} with snapshots := [
    ("a", ⟨[("k", .vmap [(.vnum 1, .vnum 2)])], 0, 1⟩),
    ("b", ⟨[("k", .vmap [(.vnum 3, .vnum 4)])], 0, 1⟩)]}

/-- C8 (witness): the amended characterization at key "k" of `diffState`:
the two Map values serialize identically (`jsonTextEq … = false` fails), so
"k" is not in `changed`, and the added/removed sets agree with the key-set
characterizations. -/
theorem compareSnapshots_spec_witness :
    apiCompareSnapshots diffState "a" "b" =
      .ok (computeDiff [("k", Value.vmap [(.vnum 1, .vnum 2)])]
        [("k", Value.vmap [(.vnum 3, .vnum 4)])]) ∧
    ("k" ∈ (computeDiff [("k", Value.vmap [(.vnum 1, .vnum 2)])]
        [("k", Value.vmap [(.vnum 3, .vnum 4)])]).changed ↔
      jsonTextEq (Value.vmap [(.vnum 1, .vnum 2)])
        (Value.vmap [(.vnum 3, .vnum 4)]) = false) :=
  ⟨(compareSnapshots_spec diffState "a" "b" _ _ rfl rfl).1,
    (compareSnapshots_spec diffState "a" "b" _ _ rfl rfl).2.2.2.2.2 "k" _ _ rfl rfl⟩

/-- C8 (counterexample): comparing snapshots that hold two DIFFERENT Map
values under the same key reports an empty diff — `changed` misses the key
although the values are deep-unequal, because `JSON.stringify` renders every
`Map` as `{}`.  The claim's `changed = keys present in both with deep-unequal
values` is false. -/
theorem compareSnapshots_changed_counterexample :
    apiCompareSnapshots diffState "a" "b" = .ok ⟨[], [], []⟩ ∧
    Value.vmap [(.vnum 1, .vnum 2)] ≠ Value.vmap [(.vnum 3, .vnum 4)] :=
  ⟨rfl, by simp⟩

end LocalStorageAPI
